import Mathlib

/-!
Verification of the CallMind call-processing pipeline (backend/index.js,
version v5.2, the first coherent version in the repository) against its
specification.  JavaScript values are shallowly embedded: JS numbers used
as scores are rationals, `Math.round` is floor of x + 1/2, JSON.parse is
modelled by an executable parser of the JSON grammar (objects, arrays,
strings with the standard escapes, numbers as exact rationals, booleans,
null), and exceptions are `Except Unit`.
-/

namespace CallMind

/-- JSON values as produced by the modelled `JSON.parse`.  Numbers are
decimal rationals: every JSON numeric literal is represented exactly (the
runtime's rounding of extreme literals to IEEE doubles is not modelled; no
arithmetic is ever performed on parsed numbers, only a zero test). -/
inductive Json where
  | null : Json
  | bool (b : Bool) : Json
  | num (n : ℚ) : Json
  | str (s : String) : Json
  | arr (elems : List Json) : Json
  | obj (fields : List (String × Json)) : Json

/-- The double-quote character. -/
def quoteC : Char := Char.ofNat 34

/-- The backslash character. -/
def backslashC : Char := Char.ofNat 92

/-- The opening-brace character. -/
def obraceC : Char := Char.ofNat 123

/-- The closing-brace character. -/
def cbraceC : Char := Char.ofNat 125

/-- JSON insignificant whitespace (also the core of the regex class used by
the fence-stripping replacements in index.js). -/
def isWsC (c : Char) : Bool :=
  c == ' ' || c == '\n' || c == '\t' || c == '\r'

/-- Skip insignificant whitespace. -/
def skipWs (cs : List Char) : List Char := cs.dropWhile isWsC

/-- Value of one hexadecimal digit. -/
def hexVal (c : Char) : Option Nat :=
  if c.isDigit then some (c.toNat - 48)
  else if 'a' ≤ c ∧ c ≤ 'f' then some (c.toNat - 87)
  else if 'A' ≤ c ∧ c ≤ 'F' then some (c.toNat - 55)
  else none

/-- Parse exactly four hexadecimal digits (the payload of a `u` escape). -/
def parseHex4 : List Char → Option (Nat × List Char)
  | a :: b :: c :: d :: rest =>
    match hexVal a, hexVal b, hexVal c, hexVal d with
    | some x, some y, some z, some w =>
      some (((x * 16 + y) * 16 + z) * 16 + w, rest)
    | _, _, _, _ => none
  | _ => none

/-- A code unit from a `u` escape as a character; a lone surrogate, which
a Lean string cannot carry, becomes the replacement character. -/
def uChar (n : Nat) : Char :=
  if n.isValidChar then Char.ofNat n else Char.ofNat 0xFFFD

/-- After a high-surrogate `u` escape, try to read an immediately
following low-surrogate `u` escape. -/
def surrogateLow (cs : List Char) : Option (Nat × List Char) :=
  match cs with
  | bs :: u :: rest =>
    if bs = backslashC ∧ u = 'u' then
      match parseHex4 rest with
      | some (n2, rest2) =>
        if 0xDC00 ≤ n2 ∧ n2 ≤ 0xDFFF then some (n2, rest2) else none
      | none => none
    else none
  | _ => none

/-- Parse the body of a JSON string after the opening quote: the standard
escapes including `u` with surrogate pairing, rejecting invalid escapes
and unescaped control characters, as `JSON.parse` does; returns the
decoded characters and the remainder. -/
def parseStringBody : Nat → List Char → Option (List Char × List Char)
  | 0, _ => none
  | _, [] => none
  | fuel + 1, c :: rest =>
    if c = quoteC then some ([], rest)
    else if c = backslashC then
      match rest with
      | [] => none
      | e :: rest2 =>
        if e = 'u' then
          match parseHex4 rest2 with
          | none => none
          | some (n1, rest3) =>
            if 0xD800 ≤ n1 ∧ n1 ≤ 0xDBFF then
              match surrogateLow rest3 with
              | some (n2, rest5) =>
                match parseStringBody fuel rest5 with
                | some (cs, rem) =>
                  some (Char.ofNat
                    (0x10000 + (n1 - 0xD800) * 0x400 + (n2 - 0xDC00)) :: cs,
                    rem)
                | none => none
              | none =>
                match parseStringBody fuel rest3 with
                | some (cs, rem) => some (uChar n1 :: cs, rem)
                | none => none
            else
              match parseStringBody fuel rest3 with
              | some (cs, rem) => some (uChar n1 :: cs, rem)
              | none => none
        else if e = quoteC ∨ e = backslashC ∨ e = '/' ∨ e = 'b' ∨ e = 'f' ∨
            e = 'n' ∨ e = 'r' ∨ e = 't' then
          let decoded :=
            if e = 'n' then '\n' else if e = 't' then '\t'
            else if e = 'r' then '\r' else if e = 'b' then Char.ofNat 8
            else if e = 'f' then Char.ofNat 12 else e
          match parseStringBody fuel rest2 with
          | some (cs, rem) => some (decoded :: cs, rem)
          | none => none
        else none
    else if c.toNat < 32 then none
    else
      match parseStringBody fuel rest with
      | some (cs, rem) => some (c :: cs, rem)
      | none => none

/-- Numeric value of a digit run. -/
def digitsToNat (ds : List Char) : Nat :=
  ds.foldl (fun acc c => acc * 10 + (c.toNat - 48)) 0

/-- Parse a nonempty run of digits. -/
def parseDigitsRun (cs : List Char) : Option (List Char × List Char) :=
  let ds := cs.takeWhile (·.isDigit)
  if ds = [] then none else some (ds, cs.dropWhile (·.isDigit))

/-- The integer part of a JSON number: a lone `0` or a nonzero leading
digit followed by a digit run (JSON rejects other leading zeros). -/
def parseIntPart (cs : List Char) : Option (Nat × List Char) :=
  match cs with
  | c :: rest =>
    if c = '0' then some (0, rest)
    else if c.isDigit then
      some (digitsToNat ((c :: rest).takeWhile (·.isDigit)),
        (c :: rest).dropWhile (·.isDigit))
    else none
  | [] => none

/-- The optional fraction part of a JSON number, as a rational in [0,1). -/
def parseFracPart (cs : List Char) : Option (ℚ × List Char) :=
  match cs with
  | '.' :: rest =>
    match parseDigitsRun rest with
    | some (ds, rem) =>
      some ((digitsToNat ds : ℚ) / (10 : ℚ) ^ ds.length, rem)
    | none => none
  | _ => some (0, cs)

/-- The optional exponent part of a JSON number. -/
def parseExpPart (cs : List Char) : Option (Int × List Char) :=
  match cs with
  | c :: rest =>
    if c = 'e' ∨ c = 'E' then
      let (eneg, rest2) :=
        match rest with
        | '+' :: r => (false, r)
        | '-' :: r => (true, r)
        | r => (false, r)
      match parseDigitsRun rest2 with
      | some (ds, rem) =>
        some (if eneg then -(digitsToNat ds : Int) else (digitsToNat ds : Int),
          rem)
      | none => none
    else some (0, c :: rest)
  | [] => some (0, [])

/-- Parse a JSON number — optional minus sign, integer part, optional
fraction and exponent — as an exact rational. -/
def parseNumber (cs : List Char) : Option (ℚ × List Char) :=
  let (neg, cs1) :=
    match cs with
    | '-' :: rest => (true, rest)
    | _ => (false, cs)
  match parseIntPart cs1 with
  | none => none
  | some (ip, cs2) =>
    match parseFracPart cs2 with
    | none => none
    | some (fv, cs3) =>
      match parseExpPart cs3 with
      | none => none
      | some (ev, cs4) =>
        let mag : ℚ := ((ip : ℚ) + fv) * (10 : ℚ) ^ ev
        some (if neg then -mag else mag, cs4)

/-- Match a literal keyword at the head of the input. -/
def matchLit : List Char → List Char → Option (List Char)
  | [], cs => some cs
  | _, [] => none
  | l :: ls, c :: cs => if c = l then matchLit ls cs else none

mutual

/-- Recursive-descent JSON value parser, fuelled to make termination
structural; fuel one larger than the input length always suffices. -/
def parseValue : Nat → List Char → Option (Json × List Char)
  | 0, _ => none
  | fuel + 1, cs =>
    let cs := skipWs cs
    match cs with
    | [] => none
    | c :: rest =>
      if c = quoteC then
        match parseStringBody (fuel + 1) rest with
        | some (body, rem) => some (.str (String.mk body), rem)
        | none => none
      else if c = obraceC then
        let rest' := skipWs rest
        match rest' with
        | d :: rem0 =>
          if d = cbraceC then some (.obj [], rem0)
          else
            match parseFields fuel rest' with
            | some (fs, rem) => some (.obj fs, rem)
            | none => none
        | [] => none
      else if c = '[' then
        let rest' := skipWs rest
        match rest' with
        | ']' :: rem0 => some (.arr [], rem0)
        | _ =>
          match parseElems fuel rest' with
          | some (es, rem) => some (.arr es, rem)
          | none => none
      else if c = 't' then
        match matchLit ('r' :: 'u' :: 'e' :: []) rest with
        | some rem => some (.bool true, rem)
        | none => none
      else if c = 'f' then
        match matchLit ('a' :: 'l' :: 's' :: 'e' :: []) rest with
        | some rem => some (.bool false, rem)
        | none => none
      else if c = 'n' then
        match matchLit ('u' :: 'l' :: 'l' :: []) rest with
        | some rem => some (.null, rem)
        | none => none
      else
        match parseNumber cs with
        | some (n, rem) => some (.num n, rem)
        | none => none

/-- Parse one or more comma-separated array elements and the closing
bracket. -/
def parseElems : Nat → List Char → Option (List Json × List Char)
  | 0, _ => none
  | fuel + 1, cs =>
    match parseValue fuel cs with
    | some (v, rem) =>
      let rem := skipWs rem
      match rem with
      | ',' :: rem2 =>
        match parseElems fuel rem2 with
        | some (vs, rem3) => some (v :: vs, rem3)
        | none => none
      | ']' :: rem2 => some (v :: [], rem2)
      | _ => none
    | none => none

/-- Parse one or more comma-separated object members and the closing
brace. -/
def parseFields : Nat → List Char → Option (List (String × Json) × List Char)
  | 0, _ => none
  | fuel + 1, cs =>
    let cs := skipWs cs
    match cs with
    | c :: rest =>
      if c = quoteC then
        match parseStringBody (fuel + 1) rest with
        | some (key, rem) =>
          let rem := skipWs rem
          match rem with
          | ':' :: rem2 =>
            match parseValue fuel rem2 with
            | some (v, rem3) =>
              let rem3 := skipWs rem3
              match rem3 with
              | ',' :: rem4 =>
                match parseFields fuel rem4 with
                | some (fs, rem5) => some ((String.mk key, v) :: fs, rem5)
                | none => none
              | d :: rem4 =>
                if d = cbraceC then some (((String.mk key, v) :: []), rem4)
                else none
              | [] => none
            | none => none
          | _ => none
        | none => none
      else none
    | [] => none

end

/-- The two-block output of the Repairer/Translator (index.js v5.2). -/
structure TransPair where
  manager : String
  client : String
deriving DecidableEq

/-- Substring occurrence test over character lists, modelling JavaScript
`String.prototype.includes`; `seqAt` checks an occurrence at the head. -/
def seqAt : List Char → List Char → Bool
  | [], _ => true
  | _ :: _, [] => false
  | n :: ns, h :: hs => n == h && seqAt ns hs

/-- Whether `needle` occurs anywhere in `hay`. -/
def containsSeq (needle : List Char) : List Char → Bool
  | [] => needle.isEmpty
  | h :: hs => seqAt needle (h :: hs) || containsSeq needle hs

/-- The error shape inspected by `callWithRetry` (index.js lines 64-70):
an optional Node error code, a message, and an optional HTTP status from
`error.response`. -/
structure JsError where
  code : Option String
  message : String
  status : Option Nat
deriving DecidableEq

/-- The retryability classification of `callWithRetry` (index.js lines
64-70): timeout, DNS failure, connection reset, socket hang up, HTTP 429,
or HTTP status at least 500. -/
def isRetryable (e : JsError) : Bool :=
  e.code == some "ECONNABORTED" ||
  e.code == some "ENOTFOUND" ||
  e.code == some "ECONNRESET" ||
  containsSeq ("socket hang up".data) e.message.data ||
  e.status == some 429 ||
  (match e.status with
   | some s => decide (500 ≤ s)
   | none => false)

/-- Outcome of `callWithRetry`: a returned value, a thrown error (each with
the number of attempts actually made), or the JavaScript `undefined`
returned when the `for` loop body never runs (`maxRetries = 0`). -/
inductive RetryResult (α : Type) where
  | ok (value : α) (calls : Nat)
  | thrown (e : JsError) (calls : Nat)
  | undef
deriving DecidableEq

/-- Number of times the request function was invoked. -/
def RetryResult.calls : RetryResult α → Nat
  | .ok _ k => k
  | .thrown _ k => k
  | .undef => 0

/-- Whether the call raised. -/
def RetryResult.isThrown : RetryResult α → Bool
  | .thrown _ _ => true
  | _ => false

/-- The loop of `callWithRetry` (index.js lines 59-107).  `f i` is the
outcome of the i-th invocation of the request function, `attempt` the
1-based loop counter and `remaining` the iterations left including the
current one; the error is rethrown when it is not retryable or the current
attempt is the last one. -/
def retryGo (f : Nat → Except JsError α) (attempt : Nat) :
    Nat → RetryResult α
  | 0 => .undef
  | remaining + 1 =>
    match f attempt with
    | .ok a => .ok a attempt
    | .error e =>
      if !isRetryable e || remaining == 0 then .thrown e attempt
      else retryGo f (attempt + 1) remaining

/-- Model of `callWithRetry(requestFn, maxRetries)` (index.js lines
58-108), abstracting the i-th invocation of `requestFn` as `f i`. -/
def callWithRetry (f : Nat → Except JsError α) (maxRetries : Nat) :
    RetryResult α :=
  retryGo f 1 maxRetries

/-- Backoff delay in milliseconds before retrying a generic failure
(index.js line 97): `Math.min(Math.pow(2, attempt - 1) * 1000, 10000)`. -/
def genericRetryDelay (attempt : Nat) : Nat :=
  min (2 ^ (attempt - 1) * 1000) 10000

/-- Backoff delay in milliseconds before retrying a rate-limited request
(index.js line 91): `Math.min(Math.pow(2, attempt) * 2000, 30000)`. -/
def rateLimitRetryDelay (attempt : Nat) : Nat :=
  min (2 ^ attempt * 2000) 30000

/-- `Math.round` on a finite JavaScript number: floor of x + 1/2 (halves
round toward positive infinity). -/
def jsRound (q : ℚ) : ℤ := Int.floor (q + 1 / 2)

/-- The fields of the model-returned analysis object that the persistence
step of `analyzeCallById` reads (index.js lines 1005-1017). -/
structure Analysis where
  call_type : String
  block1_score : ℚ
  block2_score : ℚ
  block3_score : ℚ
  block4_score : ℚ
  block5_score : ℚ
  block6_score : ℚ
  total_score : ℚ
deriving DecidableEq

/-- The numeric part of the persisted `call_scores` row. -/
structure PersistedScores where
  call_type : String
  total_score : ℤ
  block1_score : ℤ
  block2_score : ℤ
  block3_score : ℤ
  block4_score : ℤ
  block5_score : ℤ
  block6_score : ℤ
deriving DecidableEq

/-- The `call_scores` upsert of `analyzeCallById` (index.js lines
1005-1017): every persisted score is `Math.round` of the corresponding
model-returned field. -/
def persistCallScores (a : Analysis) : PersistedScores :=
  ⟨a.call_type, jsRound a.total_score,
   jsRound a.block1_score, jsRound a.block2_score, jsRound a.block3_score,
   jsRound a.block4_score, jsRound a.block5_score, jsRound a.block6_score⟩

/-- The two channel buffers labelled with their semantic roles
(`client` is the spec's counterpart, `manager` its agent). -/
structure ChannelPair (α : Type) where
  client : α
  manager : α
deriving DecidableEq

/-- The direction-dependent role mapping at the end of
`splitStereoChannels` (index.js lines 475-493): an outgoing call swaps the
channels, every other direction value keeps left = client, right =
manager. -/
def assignChannels (callDirection : String) (leftBuffer rightBuffer : α) :
    ChannelPair α :=
  if callDirection = "outgoing" then ⟨rightBuffer, leftBuffer⟩
  else ⟨leftBuffer, rightBuffer⟩

/-- One block of the formatted transcript, with the role kept as the raw
string the code pushes. -/
structure Block where
  role : String
  text : String
deriving DecidableEq

/-- The `{ plain, formatted }` result of `transcribeAudio`. -/
structure TranscribeResult where
  plain : String
  formatted : List Block
deriving DecidableEq

/-- `formatted.map(r => r.text).join(' ')` (index.js lines 791 and 838). -/
def joinTexts (bs : List Block) : String :=
  String.intercalate " " (bs.map (·.text))

/-- Building `formatted` from a translation result (index.js lines 787-789
and 834-836): one block per nonempty role text, manager first. -/
def mkFormatted (translated : TransPair) : List Block :=
  (if translated.manager ≠ "" then ⟨"manager", translated.manager⟩ :: [] else []) ++
  (if translated.client ≠ "" then ⟨"client", translated.client⟩ :: [] else [])

/-- Assembling the final `{ plain, formatted }` value from a translation
result (index.js lines 787-793 and 834-840). -/
def finishTranscribe (translated : TransPair) : TranscribeResult :=
  let formatted := mkFormatted translated
  ⟨joinTexts formatted, formatted⟩

/-- The mono branch of `transcribeAudio` after Yandex transcription
(index.js lines 824-840), with the translation LLM abstracted and its
invocations counted: raw text under 15 characters short-circuits to a
single manager block with no Repairer call. -/
def monoStage (rawText : String) (translator : String → TransPair) :
    TranscribeResult × Nat :=
  if rawText.length < 15 then
    (⟨rawText, ⟨"manager", rawText⟩ :: []⟩, 0)
  else
    (finishTranscribe (translator rawText), 1)

/-- The result of the mono branch alone. -/
def monoPathResult (rawText : String) (translator : String → TransPair) :
    TranscribeResult :=
  (monoStage rawText translator).1

/-- Model of the successful control flow of `transcribeAudio` (index.js
lines 750-841).  `separation` is the outcome of `splitStereoChannels`
(`.error` a thrown SeparationError, `.ok none` the mono signal for a
single-channel source); `managerRaw`/`clientRaw` the two stereo channel
transcriptions; `stereoTranslate` and `monoTranslate` abstract the two
Repairer calls; `monoRaw` the trimmed mono transcription. -/
def transcribeAudio (ffmpegAvailable : Bool)
    (separation : Except Unit (Option (ChannelPair Nat)))
    (managerRaw clientRaw : String)
    (stereoTranslate : String → String → TransPair)
    (monoRaw : String) (monoTranslate : String → TransPair) :
    TranscribeResult :=
  if ffmpegAvailable then
    match separation with
    | .ok (some _channels) =>
      if managerRaw = "" ∧ clientRaw = "" then ⟨"", []⟩
      else finishTranscribe (stereoTranslate managerRaw clientRaw)
    | .ok none => monoPathResult monoRaw monoTranslate
    | .error _ => monoPathResult monoRaw monoTranslate
  else monoPathResult monoRaw monoTranslate

/-- The pipeline counters of one `analyzeCallById` invocation on the mono
path: the transcript stored in `calls`, the number of Repairer LLM calls
and the number of Scorer LLM calls. -/
structure PipelineTrace where
  transcript : TranscribeResult
  repairerCalls : Nat
  scorerCalls : Nat
deriving DecidableEq

/-- Model of `analyzeCallById` on the mono transcription path (index.js
lines 1000-1017): after `transcribeAudio` returns, `analyzeCall` — the
Scorer LLM call — is invoked unconditionally (line 1003), and the analysis
it yields is persisted by `persistCallScores`. -/
def analyzeCallByIdMono (rawText : String)
    (translator : String → TransPair)
    (scorer : TranscribeResult → Analysis) :
    PipelineTrace × PersistedScores :=
  let m := monoStage rawText translator
  let analysis := scorer m.1
  (⟨m.1, m.2, 1⟩, persistCallScores analysis)

/-- A file system: contents (abstracted as numbers) keyed by path. -/
def FS : Type := String → Option Nat

/-- `fs.writeFileSync` on the model file system. -/
def fsWrite (fs : FS) (p : String) (v : Nat) : FS :=
  fun q => if q = p then some v else fs q

/-- `fs.unlinkSync` wrapped in its `try/catch` (deleting a missing file is
a no-op instead of an error). -/
def fsErase (fs : FS) (p : String) : FS :=
  fun q => if q = p then none else fs q

/-- The temporary input path `call_TS.mp3` (index.js line 448). -/
def inputPath (ts : Nat) : String := "call_" ++ toString ts ++ ".mp3"

/-- The temporary left-channel path `call_TS_left.mp3` (line 449). -/
def leftPath (ts : Nat) : String := "call_" ++ toString ts ++ "_left.mp3"

/-- The temporary right-channel path `call_TS_right.mp3` (line 450). -/
def rightPath (ts : Nat) : String := "call_" ++ toString ts ++ "_right.mp3"

/-- Outcomes of the external tool invocations inside
`splitStereoChannels`: the ffprobe channel count and the content each
ffmpeg extraction writes, each of which may fail as a subprocess error. -/
structure SepEnv where
  probeChannels : Except Unit Nat
  ffmpegLeft : Except Unit Nat
  ffmpegRight : Except Unit Nat

/-- Result of `splitStereoChannels`: a channel pair, `null` (the mono
signal), or a thrown error. -/
inductive SepOutcome where
  | pair (channels : ChannelPair Nat)
  | monoSignal
  | thrown
deriving DecidableEq

/-- Model of `splitStereoChannels` (index.js lines 445-499) with its file
system effects: write the input file, probe it, return `null` when the
stream has fewer than two channels, otherwise run the two ffmpeg
extractions and apply the direction mapping; the `finally` block deletes
all three temporary paths on every exit, including thrown subprocess
errors. -/
def splitStereoChannels (env : SepEnv) (callDirection : String)
    (audioBuffer : Nat) (ts : Nat) (fs : FS) : SepOutcome × FS :=
  let fs1 := fsWrite fs (inputPath ts) audioBuffer
  let body : SepOutcome × FS :=
    match env.probeChannels with
    | .error _ => (.thrown, fs1)
    | .ok channels =>
      if channels < 2 then (.monoSignal, fs1)
      else
        match env.ffmpegLeft with
        | .error _ => (.thrown, fs1)
        | .ok leftBuffer =>
          let fs2 := fsWrite fs1 (leftPath ts) leftBuffer
          match env.ffmpegRight with
          | .error _ => (.thrown, fs2)
          | .ok rightBuffer =>
            let fs3 := fsWrite fs2 (rightPath ts) rightBuffer
            (.pair (assignChannels callDirection leftBuffer rightBuffer), fs3)
  (body.1,
   fsErase (fsErase (fsErase body.2 (inputPath ts)) (leftPath ts))
     (rightPath ts))

/-! Theorems. -/

/-- Claim C5: channel-to-role assignment is a pure function of the call
direction: an inbound call maps the left channel to the client
(counterpart) and the right channel to the manager (agent), an outbound
call maps them the reverse way, and swapping the direction swaps the
assignment. -/
theorem assignChannels_direction_mapping {α : Type} (l r : α) :
    assignChannels "incoming" l r = ⟨l, r⟩ ∧
    assignChannels "outgoing" l r = ⟨r, l⟩ ∧
    (assignChannels "outgoing" l r).client =
      (assignChannels "incoming" l r).manager ∧
    (assignChannels "outgoing" l r).manager =
      (assignChannels "incoming" l r).client := by
  refine ⟨?_, ?_, ?_, ?_⟩ <;>
    simp [assignChannels]

/-- Claim C7: the backoff delay before each successive attempt is non-decreasing
up to the configured cap (1000·2^(attempt-1) ms capped at 10000 ms for
generic failures, 2000·2^attempt ms capped at 30000 ms for rate limits),
and for any attempt number the rate-limit delay is strictly longer than
the generic delay. -/
theorem retryDelay_monotone_and_rateLimit_longer (attempt : Nat) :
    genericRetryDelay attempt ≤ genericRetryDelay (attempt + 1) ∧
    rateLimitRetryDelay attempt ≤ rateLimitRetryDelay (attempt + 1) ∧
    genericRetryDelay attempt < rateLimitRetryDelay attempt := by
  refine ⟨?_, ?_, ?_⟩
  · exact min_le_min
      (Nat.mul_le_mul_right 1000
        (Nat.pow_le_pow_right (by norm_num)
          (Nat.sub_le_sub_right (Nat.le_succ attempt) 1)))
      le_rfl
  · exact min_le_min
      (Nat.mul_le_mul_right 2000
        (Nat.pow_le_pow_right (by norm_num) (Nat.le_succ attempt)))
      le_rfl
  · refine lt_min_iff.mpr ⟨?_, ?_⟩
    · calc genericRetryDelay attempt ≤ 2 ^ (attempt - 1) * 1000 :=
            min_le_left _ _
        _ < 2 ^ (attempt - 1) * 2000 := by
            exact mul_lt_mul_of_pos_left (by norm_num)
              (pow_pos (by norm_num) _)
        _ ≤ 2 ^ attempt * 2000 :=
            Nat.mul_le_mul_right 2000
              (Nat.pow_le_pow_right (by norm_num) (Nat.sub_le attempt 1))
    · calc genericRetryDelay attempt ≤ 10000 := min_le_right _ _
        _ < 30000 := by norm_num

/-- Claim C8: when channel separation reports fewer than two channels (returns
`null`) or throws a separation error, `transcribeAudio` treats both cases
identically, completing normally with the mono-path result. -/
theorem transcribeAudio_mono_fallback
    (managerRaw clientRaw : String)
    (stereoTranslate : String → String → TransPair)
    (monoRaw : String) (monoTranslate : String → TransPair) :
    transcribeAudio true (.ok none) managerRaw clientRaw stereoTranslate
        monoRaw monoTranslate = monoPathResult monoRaw monoTranslate ∧
    transcribeAudio true (.error ()) managerRaw clientRaw stereoTranslate
        monoRaw monoTranslate = monoPathResult monoRaw monoTranslate := by
  exact ⟨rfl, rfl⟩

/-- Claim C1 counterexample: for the analysis value whose six per-criterion
scores are all 100 but whose model-returned `total_score` is 0, the
persisted overall score is 0 and not the rounded arithmetic mean (100) of
the per-criterion scores — no self-computed mean cross-check exists in
`analyzeCallById`. -/
theorem persistCallScores_not_mean_counterexample :
    (persistCallScores ⟨"X", 100, 100, 100, 100, 100, 100, 0⟩).total_score = 0 ∧
    jsRound (((100 : ℚ) + 100 + 100 + 100 + 100 + 100) / 6) = 100 ∧
    (0 : ℤ) ≠ 100 := by
  refine ⟨?_, ?_, by decide⟩
  · norm_num [persistCallScores, jsRound]
  · norm_num [jsRound]

/-- Claim C1 amended: the persisted overall score is the model-returned
`total_score` rounded to the nearest integer, and it depends only on that
field — two analyses with the same `total_score` persist the same overall
score regardless of their per-criterion scores. -/
theorem persistCallScores_total_from_model (a a' : Analysis)
    (h : a.total_score = a'.total_score) :
    (persistCallScores a).total_score = jsRound a.total_score ∧
    (persistCallScores a).total_score = (persistCallScores a').total_score := by
  exact ⟨rfl, by simp [persistCallScores, h]⟩

/-- Witness for the C1 amended theorem at two concrete analyses sharing
`total_score` 50 but with different per-criterion scores. -/
theorem persistCallScores_total_from_model_witness :
    (persistCallScores ⟨"a", 1, 2, 3, 4, 5, 6, 50⟩).total_score =
        jsRound ((50 : ℚ)) ∧
    (persistCallScores ⟨"a", 1, 2, 3, 4, 5, 6, 50⟩).total_score =
        (persistCallScores ⟨"b", 9, 9, 9, 9, 9, 9, 50⟩).total_score :=
  persistCallScores_total_from_model
    ⟨"a", 1, 2, 3, 4, 5, 6, 50⟩ ⟨"b", 9, 9, 9, 9, 9, 9, 50⟩ rfl

/-- Claim C4 counterexample: for the two-character raw text "Hi" (under 15
characters) the pipeline produces the single-block transcript with no
Repairer call, but `analyzeCallById` still makes exactly one Scorer LLM
call — the claim's "no Scorer LLM call" fails. -/
theorem analyzeCallByIdMono_scorer_still_called :
    ((analyzeCallByIdMono "Hi" (fun _ => ⟨"", ""⟩)
        (fun _ => ⟨"SHORT", 0, 0, 0, 0, 0, 0, 0⟩)).1.scorerCalls = 1) ∧
    (1 : Nat) ≠ 0 ∧
    ((analyzeCallByIdMono "Hi" (fun _ => ⟨"", ""⟩)
        (fun _ => ⟨"SHORT", 0, 0, 0, 0, 0, 0, 0⟩)).1.transcript.formatted =
      ⟨"manager", "Hi"⟩ :: []) := by
  refine ⟨by decide, by decide, by decide⟩

/-- Claim C4 amended: on the mono path, raw transcribed text under 15 characters
short-circuits the translation stage — the stored transcript is the raw
text as a single manager block and the Repairer is not called — but the
Scorer LLM is still invoked exactly once; the short-call classification
and zero scores are delegated to the scoring rubric, not enforced in
code. -/
theorem analyzeCallByIdMono_short_circuit (rawText : String)
    (translator : String → TransPair) (scorer : TranscribeResult → Analysis)
    (h : rawText.length < 15) :
    (analyzeCallByIdMono rawText translator scorer).1 =
      ⟨⟨rawText, ⟨"manager", rawText⟩ :: []⟩, 0, 1⟩ := by
  simp [analyzeCallByIdMono, monoStage, h]

/-- Witness for the C4 amended theorem at the concrete raw text "Alo". -/
theorem analyzeCallByIdMono_short_circuit_witness :
    ("Alo".length < 15) ∧
    (analyzeCallByIdMono "Alo" (fun _ => ⟨"", ""⟩)
        (fun _ => ⟨"SHORT", 0, 0, 0, 0, 0, 0, 0⟩)).1 =
      ⟨⟨"Alo", ⟨"manager", "Alo"⟩ :: []⟩, 0, 1⟩ :=
  ⟨by decide,
   analyzeCallByIdMono_short_circuit "Alo" (fun _ => ⟨"", ""⟩)
     (fun _ => ⟨"SHORT", 0, 0, 0, 0, 0, 0, 0⟩) (by decide)⟩

/-- Joining a single block is its text. -/
theorem joinTexts_single (b : Block) : joinTexts (b :: []) = b.text := rfl

/-- The blocks built by `mkFormatted` carry only the roles `manager` and
`client`. -/
theorem mkFormatted_roles (t : TransPair) :
    ((mkFormatted t).all
      (fun b => b.role == "manager" || b.role == "client")) = true := by
  unfold mkFormatted
  split <;> split <;> simp

/-- The stereo/mono assembly step satisfies the plain-equals-join
invariant and the role invariant. -/
theorem finishTranscribe_invariant (t : TransPair) :
    (finishTranscribe t).plain = joinTexts (finishTranscribe t).formatted ∧
    ((finishTranscribe t).formatted.all
      (fun b => b.role == "manager" || b.role == "client")) = true :=
  ⟨rfl, mkFormatted_roles t⟩

/-- The mono branch satisfies the plain-equals-join invariant and the role
invariant on both of its return sites. -/
theorem monoPathResult_invariant (rawText : String)
    (translator : String → TransPair) :
    (monoPathResult rawText translator).plain =
      joinTexts (monoPathResult rawText translator).formatted ∧
    ((monoPathResult rawText translator).formatted.all
      (fun b => b.role == "manager" || b.role == "client")) = true := by
  unfold monoPathResult monoStage
  split
  · exact ⟨rfl, by simp⟩
  · exact finishTranscribe_invariant _

/-- Claim C10: on every successful return of `transcribeAudio` — stereo path,
empty-transcription path, mono path and short-text short-circuit — the
returned plain string equals the texts of the formatted blocks joined with
single spaces, and every formatted block carries role `manager` or
`client`. -/
theorem transcribeAudio_plain_join_and_roles (ffmpegAvailable : Bool)
    (separation : Except Unit (Option (ChannelPair Nat)))
    (managerRaw clientRaw : String)
    (stereoTranslate : String → String → TransPair)
    (monoRaw : String) (monoTranslate : String → TransPair) :
    (transcribeAudio ffmpegAvailable separation managerRaw clientRaw
        stereoTranslate monoRaw monoTranslate).plain =
      joinTexts (transcribeAudio ffmpegAvailable separation managerRaw
        clientRaw stereoTranslate monoRaw monoTranslate).formatted ∧
    ((transcribeAudio ffmpegAvailable separation managerRaw clientRaw
        stereoTranslate monoRaw monoTranslate).formatted.all
      (fun b => b.role == "manager" || b.role == "client")) = true := by
  unfold transcribeAudio
  cases ffmpegAvailable with
  | false => exact monoPathResult_invariant _ _
  | true =>
    cases separation with
    | error e => exact monoPathResult_invariant _ _
    | ok o =>
      cases o with
      | none => exact monoPathResult_invariant _ _
      | some channels =>
        by_cases hmc : managerRaw = "" ∧ clientRaw = ""
        · simp only [if_pos hmc]
          exact ⟨rfl, by simp⟩
        · simp only [if_neg hmc]
          exact finishTranscribe_invariant _

/-- Claim C9: on every exit path of `splitStereoChannels` — channel pair
returned, mono signal returned, or subprocess error thrown at the probe or
either extraction — the final file system equals the initial one with the
three temporary paths deleted: every file the function created is removed
and no other path is touched. -/
theorem splitStereoChannels_cleanup (env : SepEnv) (callDirection : String)
    (audioBuffer : Nat) (ts : Nat) (fs : FS) :
    (splitStereoChannels env callDirection audioBuffer ts fs).2 =
      fsErase (fsErase (fsErase fs (inputPath ts)) (leftPath ts))
        (rightPath ts) := by
  rcases env with ⟨probe, ffl, ffr⟩
  funext q
  by_cases h1 : q = rightPath ts <;> by_cases h2 : q = leftPath ts <;>
    by_cases h3 : q = inputPath ts <;>
      cases probe <;> cases ffl <;> cases ffr <;>
        simp [splitStereoChannels, fsErase, fsWrite, h1, h2, h3] <;>
          split <;> simp [fsErase, fsWrite, h1, h2, h3]

/-- The retry loop makes strictly fewer invocations than `attempt`
plus the remaining iteration budget. -/
theorem retryGo_calls_lt {α : Type} (f : Nat → Except JsError α) :
    ∀ (r a : Nat), 1 ≤ a → (retryGo f a r).calls < a + r := by
  intro r
  induction r with
  | zero =>
    intro a ha
    simpa [retryGo, RetryResult.calls] using ha
  | succ r ih =>
    intro a ha
    cases hf : f a with
    | ok v =>
      simp only [retryGo, hf, RetryResult.calls]
      omega
    | error e =>
      simp only [retryGo, hf]
      by_cases hcond : (!isRetryable e || r == 0) = true
      · rw [if_pos hcond]
        simp only [RetryResult.calls]
        omega
      · rw [if_neg hcond]
        have := ih (a + 1) (by omega)
        omega

/-- The retry loop throws exactly when some attempt `k` within the budget
fails, every earlier attempt failed retryably, and `k`'s error is either
non-retryable or `k` is the final attempt. -/
theorem retryGo_isThrown_iff {α : Type} (f : Nat → Except JsError α) :
    ∀ (r a : Nat), 1 ≤ r →
      ((retryGo f a r).isThrown = true ↔
        ∃ k e, a ≤ k ∧ k < a + r ∧
          (∀ i, a ≤ i → i < k →
            ∃ e', f i = .error e' ∧ isRetryable e' = true) ∧
          f k = .error e ∧
          (isRetryable e = false ∨ k + 1 = a + r)) := by
  intro r
  induction r with
  | zero => intro a h; exact absurd h (by omega)
  | succ r ih =>
    intro a _
    cases hf : f a with
    | ok v =>
      simp only [retryGo, hf, RetryResult.isThrown, Bool.false_eq_true,
        false_iff]
      rintro ⟨k, e, hak, hk, hall, hfk, _⟩
      rcases Nat.eq_or_lt_of_le hak with heq | hlt
      · rw [← heq, hf] at hfk; cases hfk
      · obtain ⟨e', hfa, _⟩ := hall a le_rfl hlt
        rw [hf] at hfa; cases hfa
    | error e0 =>
      simp only [retryGo, hf]
      by_cases hcond : (!isRetryable e0 || r == 0) = true
      · rw [if_pos hcond]
        simp only [RetryResult.isThrown, true_iff]
        have hcases : isRetryable e0 = false ∨ r = 0 := by
          rcases Bool.eq_false_or_eq_true (isRetryable e0) with h | h
          · right
            simp only [h, Bool.not_true, Bool.false_or, beq_iff_eq] at hcond
            exact hcond
          · exact Or.inl h
        refine ⟨a, e0, le_rfl, by omega, ?_, hf, ?_⟩
        · intro i hi1 hi2; omega
        · rcases hcases with h | h
          · exact Or.inl h
          · right; omega
      · have hcond' : ¬(isRetryable e0 = false ∨ r = 0) := by
          intro hor
          apply hcond
          rcases hor with h | h
          · simp [h]
          · simp [h]
        have hret : isRetryable e0 = true := by
          rcases Bool.eq_false_or_eq_true (isRetryable e0) with h | h
          · exact h
          · exact absurd (Or.inl h) hcond' 
        have hr0 : r ≠ 0 := fun h => hcond' (Or.inr h)
        rw [if_neg hcond, ih (a + 1) (by omega)]
        constructor
        · rintro ⟨k, e, hk1, hk2, hall, hfk, hlast⟩
          refine ⟨k, e, by omega, by omega, ?_, hfk, ?_⟩
          · intro i hi1 hi2
            rcases Nat.eq_or_lt_of_le hi1 with heq | hlt
            · rw [← heq]; exact ⟨e0, hf, hret⟩
            · exact hall i (by omega) hi2
          · rcases hlast with h | h
            · exact Or.inl h
            · right; omega
        · rintro ⟨k, e, hk1, hk2, hall, hfk, hlast⟩
          have hka : a + 1 ≤ k := by
            rcases Nat.eq_or_lt_of_le hk1 with heq | hlt
            · exfalso
              rw [← heq, hf] at hfk
              cases hfk
              rcases hlast with hbad | hbad
              · rw [hret] at hbad; cases hbad
              · omega
            · omega
          refine ⟨k, e, hka, by omega,
            fun i hi1 hi2 => hall i (by omega) hi2, hfk, ?_⟩
          rcases hlast with h | h
          · exact Or.inl h
          · right; omega

/-- Claim C6: for any request function, `callWithRetry` invokes it at most
`maxRetries` times, and the wrapped call raises an error exactly when some
attempt `k` failed with every earlier attempt failing retryably and either
`k`'s error is non-retryable (no further attempt is made) or `k` is the
final attempt (the bound is exhausted). -/
theorem callWithRetry_retry_policy {α : Type} (f : Nat → Except JsError α)
    (maxRetries : Nat) (h : 1 ≤ maxRetries) :
    (callWithRetry f maxRetries).calls ≤ maxRetries ∧
    ((callWithRetry f maxRetries).isThrown = true ↔
      ∃ k e, 1 ≤ k ∧ k ≤ maxRetries ∧
        (∀ i, 1 ≤ i → i < k →
          ∃ e', f i = .error e' ∧ isRetryable e' = true) ∧
        f k = .error e ∧
        (isRetryable e = false ∨ k = maxRetries)) := by
  constructor
  · have := retryGo_calls_lt f maxRetries 1 le_rfl
    unfold callWithRetry
    omega
  · rw [callWithRetry, retryGo_isThrown_iff f maxRetries 1 h]
    constructor
    · rintro ⟨k, e, h1, h2, hall, hfk, hl⟩
      refine ⟨k, e, h1, by omega, hall, hfk, ?_⟩
      rcases hl with h' | h'
      · exact Or.inl h'
      · right; omega
    · rintro ⟨k, e, h1, h2, hall, hfk, hl⟩
      refine ⟨k, e, h1, by omega, hall, hfk, ?_⟩
      rcases hl with h' | h'
      · exact Or.inl h'
      · right; omega

/-- Witness for the C6 theorem with a request function that succeeds on
its first attempt and the configured bound 3. -/
theorem callWithRetry_retry_policy_witness :
    (1 : Nat) ≤ 3 ∧
    ((callWithRetry (fun _ => Except.ok (0 : Nat)) 3).calls ≤ 3 ∧
      ((callWithRetry (fun _ => Except.ok (0 : Nat)) 3).isThrown = true ↔
        ∃ k e, 1 ≤ k ∧ k ≤ 3 ∧
          (∀ i, 1 ≤ i → i < k →
            ∃ e', (fun _ => Except.ok (0 : Nat)) i = .error e' ∧
              isRetryable e' = true) ∧
          (fun _ => Except.ok (0 : Nat)) k = .error e ∧
          (isRetryable e = false ∨ k = 3))) :=
  ⟨by decide, callWithRetry_retry_policy (fun _ => Except.ok 0) 3 (by decide)⟩

end CallMind
